import Mathlib

/-!
A shallow embedding of the alert subsystem of `bottelegram.py`
(CryptoVektorProBot): the TTL cache (`cache_get`, `cache_set`, `fetch_json`),
the price lookup (`get_simple_price`), and the alert registry/scheduler
(`alerts_store`, `setup_alert`, `clear_all_alerts`, `alert_worker`).

Modelling conventions:
* Python floats (prices, timestamps) are modelled as exact rationals `ℚ`;
  the claims under study are about control flow and which arithmetic
  expression is computed, not about IEEE rounding.
* Python dicts are modelled as association lists with insert-or-replace
  update; `time.time()` is an explicit `now : ℚ` argument; the network is an
  explicit `NetResp` argument (what `requests.get` would produce).
* Code that can raise (`data[coin_id]["usd"]`, `float(...)`) is modelled in
  `Except String`; the worker loop's `try/except` and `fetch_json`'s
  `try/except` appear as explicit total case splits.
* The side effect of `bot.send_message` is modelled as the structured
  message value a step emits (`AlertMsg`); text formatting is presentation
  and out of scope.
-/

set_option autoImplicit false

/-- Association-list lookup, mirroring Python `d.get(k)` / `k in d`. -/
def alGet {α β : Type} [DecidableEq α] : List (α × β) → α → Option β
  | [], _ => Option.none
  | (k, v) :: t, k₀ => if k = k₀ then some v else alGet t k₀

/-- Association-list insert-or-replace, mirroring Python `d[k] = v`. -/
def alSet {α β : Type} [DecidableEq α] : List (α × β) → α → β → List (α × β)
  | [], k₀, v₀ => [(k₀, v₀)]
  | (k, v) :: t, k₀, v₀ => if k = k₀ then (k₀, v₀) :: t else (k, v) :: alSet t k₀ v₀

/-- Association-list key removal, mirroring Python `del d[k]` (on lists that
represent dicts no key occurs twice; removal of every occurrence coincides
with `del` there). -/
def alRemove {α β : Type} [DecidableEq α] : List (α × β) → α → List (α × β)
  | [], _ => []
  | (k, v) :: t, k₀ => if k = k₀ then alRemove t k₀ else (k, v) :: alRemove t k₀

/-- Parsed JSON / Python values flowing through the bot. `null` models both
JSON `null` and Python `None` (the code conflates them: `r.json()` returning
`None` is indistinguishable from the failure marker). JSON arrays never occur
on the simple-price path and are omitted; `float()` coercion of numeric
strings is likewise not modelled (no claim depends on it). -/
inductive PyVal : Type
  | null : PyVal
  | num : ℚ → PyVal
  | str : String → PyVal
  | dict : List (String × PyVal) → PyVal

/-- Python truthiness (`if not data`) for the modelled values. -/
def truthy : PyVal → Bool
  | PyVal.null => false
  | PyVal.num q => q != 0
  | PyVal.str s => s != ""
  | PyVal.dict entries => !entries.isEmpty

/-- `v is None` (`is not None` checks in the source negate this). -/
def PyVal.isNull : PyVal → Bool
  | PyVal.null => true
  | _ => false

/-- Substring test, Python `k in s` on strings. -/
def strContainsSub (s k : String) : Bool :=
  (List.range (s.length + 1)).any fun i => k.isPrefixOf (s.drop i)

/-- Python `k in v` for a string key: key test on dicts, substring test on
strings, `TypeError` on non-containers. -/
def pyContains : PyVal → String → Except String Bool
  | PyVal.dict entries, k => Except.ok (alGet entries k).isSome
  | PyVal.str s, k => Except.ok (strContainsSub s k)
  | _, _ => Except.error "TypeError"

/-- Python `v[k]` for a string key: dict lookup (raising `KeyError` when the
key is absent), `TypeError` on anything else. -/
def pyIndex : PyVal → String → Except String PyVal
  | PyVal.dict entries, k =>
    match alGet entries k with
    | some v => Except.ok v
    | Option.none => Except.error "KeyError"
  | _, _ => Except.error "TypeError"

/-- Python `float(v)`: identity on numbers, raises otherwise (numeric-string
coercion not modelled; unused by every claim). -/
def pyFloat : PyVal → Except String ℚ
  | PyVal.num q => Except.ok q
  | _ => Except.error "TypeError"

/-- One `_API_CACHE` entry: `{"ts": time.time(), "data": data}`. -/
structure CacheRec : Type where
  ts : ℚ
  data : PyVal

abbrev Cache := List (String × CacheRec)

/-- `cache_get(url, ttl)`: return the cached data unless the entry is absent
or older than `ttl` (in both of those cases Python returns `None`). -/
def cache_get (c : Cache) (now : ℚ) (url : String) (ttl : ℚ) : PyVal :=
  match alGet c url with
  | Option.none => PyVal.null
  | some rec => if now - rec.ts > ttl then PyVal.null else rec.data

/-- `cache_set(url, data)`: store `{"ts": now, "data": data}` under `url`. -/
def cache_set (c : Cache) (now : ℚ) (url : String) (data : PyVal) : Cache :=
  alSet c url ⟨now, data⟩

/-- What the network produces for one `requests.get(url, timeout=15)`:
a raised transport error, or a response with a status code and a body whose
JSON parse either succeeds (`some`) or raises (`Option.none`). -/
inductive NetResp : Type
  | transportError : NetResp
  | resp : ℕ → Option PyVal → NetResp

/-- Result of one `fetch_json` call: returned value (`PyVal.null` is the
failure marker), cache afterwards, and whether a network call was made. -/
structure FetchResult : Type where
  data : PyVal
  cache : Cache
  netCalled : Bool

/-- `fetch_json(url, ttl)`. Cache hit (`cached is not None`) short-circuits
the network. Otherwise the `try` body runs: a transport error or a JSON
parse error is caught by the `except` and yields `None` with the cache
untouched; a non-200 status yields `None` with the cache untouched; a 200
parse stores the data via `cache_set` and returns it. Total by construction:
nothing escapes the `try/except`. -/
def fetch_json (net : NetResp) (c : Cache) (now : ℚ) (url : String) (ttl : ℚ) :
    FetchResult :=
  let cached := cache_get c now url ttl
  if cached.isNull = false then ⟨cached, c, false⟩
  else
    match net with
    | NetResp.transportError => ⟨PyVal.null, c, true⟩
    | NetResp.resp status body =>
      if status = 200 then
        match body with
        | some data => ⟨data, cache_set c now url data, true⟩
        | Option.none => ⟨PyVal.null, c, true⟩
      else ⟨PyVal.null, c, true⟩

/-- `get_simple_price(coin_id)` applied to the value `fetch_json` returned
for the simple-price URL (ttl 30). `if not data or coin_id not in data:
return None` then `float(data[coin_id]["usd"])`, whose subscripting and
coercion may raise. -/
def get_simple_price (data : PyVal) (coin_id : String) : Except String (Option ℚ) :=
  if truthy data = false then Except.ok Option.none
  else do
    let mem ← pyContains data coin_id
    if mem = false then Except.ok Option.none
    else do
      let entry ← pyIndex data coin_id
      let usd ← pyIndex entry "usd"
      let f ← pyFloat usd
      Except.ok (some f)

/-- One `alerts_store[chat_id][coin_id]` record:
`{"thread": thread, "interval": seconds, "last_price": price}`.
The thread handle is opaque; only its identity matters. -/
structure SubRec : Type where
  threadId : ℕ
  interval : ℕ
  last_price : Option ℚ
deriving DecidableEq

abbrev ChatAlerts := List (String × SubRec)

abbrev AlertsStore := List (ℤ × ChatAlerts)

/-- `alerts_store[chat_id][coin_id]` as an optional lookup. -/
def getSub (s : AlertsStore) (chat : ℤ) (coin : String) : Option SubRec :=
  (alGet s chat).bind fun inner => alGet inner coin

/-- `alerts_store[chat_id][coin_id].get("last_price")`. -/
def getLast (s : AlertsStore) (chat : ℤ) (coin : String) : Option ℚ :=
  (getSub s chat coin).bind fun rec => rec.last_price

/-- The worker's liveness check, negation of
`chat_id not in alerts_store or coin_id not in alerts_store[chat_id]`.
Note it is keyed only by `(chat_id, coin_id)`: it cannot tell which thread
is asking. -/
def alert_live (s : AlertsStore) (chat : ℤ) (coin : String) : Bool :=
  match alGet s chat with
  | Option.none => false
  | some inner => (alGet inner coin).isSome

/-- `alerts_store[chat_id][coin_id]["last_price"] = p`. The source would
raise `KeyError` on an absent record; every call site is guarded (the record
was just created by `setup_alert`, or liveness was just checked), so the
absent case is modelled as the identity. -/
def setLastPrice (s : AlertsStore) (chat : ℤ) (coin : String) (p : Option ℚ) :
    AlertsStore :=
  match alGet s chat with
  | Option.none => s
  | some inner =>
    match alGet inner coin with
    | Option.none => s
    | some rec => alSet s chat (alSet inner coin { rec with last_price := p })

/-- `setup_alert(chat_id, coin_id, interval_s)`: ensure the chat's inner
dict exists, then overwrite the coin's record with a fresh thread handle,
the chosen interval and `last_price = None`. (The source's "stop the
previous alert" branch is literally `pass`.) `tid` models the fresh
`threading.Thread` handle. -/
def setup_alert (s : AlertsStore) (chat : ℤ) (coin : String) (interval_s : ℕ)
    (tid : ℕ) : AlertsStore :=
  let s1 := if (alGet s chat).isSome then s else alSet s chat []
  let inner := (alGet s1 chat).getD []
  alSet s1 chat (alSet inner coin ⟨tid, interval_s, Option.none⟩)

/-- `clear_all_alerts(chat_id)`: `alerts_store[chat_id].clear()` when the
chat is present (the outer key stays, mapped to an empty dict); no-op
otherwise. -/
def clear_all_alerts (s : AlertsStore) (chat : ℤ) : AlertsStore :=
  match alGet s chat with
  | Option.none => s
  | some _ => alSet s chat []

/-- Modelled from the spec: `unsubscribe(subscriber, asset)` "removes the
entry". No unsubscribe function exists in `bottelegram.py` (only
`clear_all_alerts`); this definition follows the spec's contract in §4.3. -/
def unsubscribe (s : AlertsStore) (chat : ℤ) (coin : String) : AlertsStore :=
  match alGet s chat with
  | Option.none => s
  | some inner => alSet s chat (alRemove inner coin)

/-- The directional indicator of a notification (📈 / 📉 / ➡️). -/
inductive PriceDir : Type
  | up : PriceDir
  | down : PriceDir
  | flat : PriceDir
deriving DecidableEq

/-- `"📈" if change_pct > 0 else "📉" if change_pct < 0 else "➡️"`. -/
def dirOf (pct : ℚ) : PriceDir :=
  if 0 < pct then PriceDir.up else if pct < 0 then PriceDir.down else PriceDir.flat

/-- The structured content of each `bot.send_message` the worker can emit:
the initial "alerts enabled" notice, the "price unavailable" notice, a plain
price line (undefined change), or price plus signed percentage with its
directional indicator. -/
inductive AlertMsg : Type
  | enabled : String → ℚ → AlertMsg
  | unavailable : String → AlertMsg
  | plain : String → ℚ → AlertMsg
  | change : String → ℚ → ℚ → PriceDir → AlertMsg
deriving DecidableEq

/-- The percentage a notification reports, if any. -/
def msgPct : AlertMsg → Option ℚ
  | AlertMsg.change _ _ pct _ => some pct
  | _ => Option.none

/-- `alert_worker`'s STARTING step (lines before the loop): fetch once; on a
truthy price (`if last_price:` — not `None` and nonzero) send the "alerts
enabled" notice and write the price into the record; otherwise do nothing.
`fetched` is what `get_simple_price` returned. -/
def alert_worker_start (s : AlertsStore) (chat : ℤ) (coin : String)
    (fetched : Option ℚ) : AlertsStore × Option AlertMsg :=
  match fetched with
  | Option.none => (s, Option.none)
  | some p =>
    if p ≠ 0 then (setLastPrice s chat coin (some p), some (AlertMsg.enabled coin p))
    else (s, Option.none)

/-- Result of one wake of the worker loop: the store afterwards, the message
sent (if any), and whether the loop continues (`false` = `break`). -/
structure TickResult : Type where
  store : AlertsStore
  sent : Option AlertMsg
  alive : Bool
deriving DecidableEq

/-- One iteration of `alert_worker`'s `while True` after the sleep: liveness
check (`break` on absence, no message); on fetch failure the unavailable
notice and `continue` with the store untouched; on success read
`last_price`, compute `change_pct` iff `last_price and last_price > 0`,
write the new price, and send the message. `fetched` is what
`get_simple_price` returned at this wake. -/
def alert_tick (s : AlertsStore) (chat : ℤ) (coin : String) (fetched : Option ℚ) :
    TickResult :=
  if alert_live s chat coin = false then ⟨s, Option.none, false⟩
  else
    match fetched with
    | Option.none => ⟨s, some (AlertMsg.unavailable coin), true⟩
    | some current =>
      let change_pct : Option ℚ :=
        match getLast s chat coin with
        | Option.none => Option.none
        | some o => if o ≠ 0 ∧ 0 < o then some ((current - o) / o * 100) else Option.none
      let s2 := setLastPrice s chat coin (some current)
      match change_pct with
      | Option.none => ⟨s2, some (AlertMsg.plain coin current), true⟩
      | some pct => ⟨s2, some (AlertMsg.change coin current pct (dirOf pct)), true⟩

/-- Successive wakes of one worker, fed by the successive fetch results. -/
def alert_tick_trace (s : AlertsStore) (chat : ℤ) (coin : String) :
    List (Option ℚ) → List TickResult
  | [] => []
  | f :: fs =>
    let r := alert_tick s chat coin f
    r :: alert_tick_trace r.store chat coin fs

/-- The spec's expected reported percentages for successive prices starting
from baseline `base`: `[(p1-p0)/p0*100, (p2-p1)/p1*100, ...]`. -/
def expected_pcts (base : ℚ) : List ℚ → List (Option ℚ)
  | [] => []
  | p :: rest => some ((p - base) / base * 100) :: expected_pcts p rest

/-- A fresh subscription followed by the worker's STARTING step on fetched
price `p0`. -/
def subscribe_and_start (chat : ℤ) (coin : String) (interval_s tid : ℕ) (p0 : ℚ) :
    AlertsStore × Option AlertMsg :=
  alert_worker_start (setup_alert [] chat coin interval_s tid) chat coin (some p0)

/-- Claim C2 as stated, for a fetch sequence `p0 :: rest` with no failures:
the initial notification is sent with no percentage and `p0` becomes the
baseline, every periodic tick reports `(p_k - p_(k-1)) / p_(k-1) * 100`, and
every tick writes the newly fetched price as `last_price`. -/
def C2_claim (chat : ℤ) (coin : String) (interval_s tid : ℕ) (p0 : ℚ)
    (rest : List ℚ) : Prop :=
  (subscribe_and_start chat coin interval_s tid p0).2 = some (AlertMsg.enabled coin p0) ∧
  getLast (subscribe_and_start chat coin interval_s tid p0).1 chat coin = some p0 ∧
  ((alert_tick_trace (subscribe_and_start chat coin interval_s tid p0).1 chat coin
        (rest.map some)).map fun r => r.sent.bind msgPct) = expected_pcts p0 rest ∧
  ((alert_tick_trace (subscribe_and_start chat coin interval_s tid p0).1 chat coin
        (rest.map some)).map fun r => getLast r.store chat coin) = rest.map some

/-- Claim C9 as stated, for one subscribe call and its STARTING step on fetch
result `fetched`: `last_price` starts unset; whenever a price is available
the initial notification is sent and the price recorded; whenever the price
is unavailable the initial notification is skipped and the task stays live. -/
def C9_claim (chat : ℤ) (coin : String) (interval_s tid : ℕ)
    (fetched : Option ℚ) : Prop :=
  getLast (setup_alert [] chat coin interval_s tid) chat coin = Option.none ∧
  (∀ p : ℚ, fetched = some p →
    (alert_worker_start (setup_alert [] chat coin interval_s tid) chat coin fetched).2
        = some (AlertMsg.enabled coin p) ∧
    getLast (alert_worker_start (setup_alert [] chat coin interval_s tid) chat coin
        fetched).1 chat coin = some p) ∧
  (fetched = Option.none →
    (alert_worker_start (setup_alert [] chat coin interval_s tid) chat coin fetched).2
        = Option.none ∧
    alert_live (alert_worker_start (setup_alert [] chat coin interval_s tid) chat coin
        fetched).1 chat coin = true)

/-- Two successive `fetch_json` calls on the same URL at times `t1 ≤ t2`,
with the cache threaded from the first call into the second. -/
def fetch_twice (net1 net2 : NetResp) (c : Cache) (t1 t2 : ℚ) (url : String)
    (ttl : ℚ) : FetchResult × FetchResult :=
  let r1 := fetch_json net1 c t1 url ttl
  (r1, fetch_json net2 r1.cache t2 url ttl)

/-- How many of the two calls actually hit the network. -/
def netCalls2 (p : FetchResult × FetchResult) : ℕ :=
  (if p.1.netCalled then 1 else 0) + (if p.2.netCalled then 1 else 0)

/-- The two-call part of claim C5 as stated: two fetch calls with the same
URL within `ttl` seconds return identical data with at most one network
call. -/
def C5_claim (net1 net2 : NetResp) (c : Cache) (t1 t2 : ℚ) (url : String)
    (ttl : ℚ) : Prop :=
  t1 ≤ t2 → t2 - t1 ≤ ttl →
    (fetch_twice net1 net2 c t1 t2 url ttl).1.data
        = (fetch_twice net1 net2 c t1 t2 url ttl).2.data ∧
    netCalls2 (fetch_twice net1 net2 c t1 t2 url ttl) ≤ 1

/-- The registry after `setup_alert(42, "bitcoin", 900)` immediately followed
by `setup_alert(42, "bitcoin", 1800)` for the same pair (thread handles 0
and 1): the superseding scenario of claim C1. -/
def resub_store : AlertsStore :=
  setup_alert (setup_alert [] 42 "bitcoin" 900 0) 42 "bitcoin" 1800 1

/-- A live one-subscription registry whose `last_price` is 4: witness state
for the tick claims. -/
def wStore : AlertsStore :=
  setLastPrice (setup_alert [] 1 "btc" 900 0) 1 "btc" (some 4)

/-! ### Association-list lemmas -/

theorem alGet_alSet_self {α β : Type} [DecidableEq α] (l : List (α × β)) (k : α) (v : β) :
    alGet (alSet l k v) k = some v := by
  induction l with
  | nil => simp [alGet, alSet]
  | cons hd t ih =>
    obtain ⟨k₁, v₁⟩ := hd
    by_cases h : k₁ = k <;> simp [alGet, alSet, h, ih]

theorem alGet_alSet_ne {α β : Type} [DecidableEq α] (l : List (α × β)) (k k' : α) (v : β)
    (h : k' ≠ k) : alGet (alSet l k v) k' = alGet l k' := by
  induction l with
  | nil => simp [alGet, alSet, Ne.symm h]
  | cons hd t ih =>
    obtain ⟨k₁, v₁⟩ := hd
    by_cases h₁ : k₁ = k
    · simp [alGet, alSet, h₁, Ne.symm h]
    · simp only [alSet, if_neg h₁, alGet]
      by_cases h₂ : k₁ = k' <;> simp [h₂, ih]

theorem alSet_of_alGet_eq {α β : Type} [DecidableEq α] (l : List (α × β)) (k : α) (v : β)
    (h : alGet l k = some v) : alSet l k v = l := by
  induction l with
  | nil => simp [alGet] at h
  | cons hd t ih =>
    obtain ⟨k₁, v₁⟩ := hd
    by_cases h₁ : k₁ = k
    · subst h₁
      simp [alGet] at h
      simp [alSet, h]
    · simp [alGet, h₁] at h
      simp [alSet, h₁, ih h]

theorem alGet_alRemove_self {α β : Type} [DecidableEq α] (l : List (α × β)) (k : α) :
    alGet (alRemove l k) k = Option.none := by
  induction l with
  | nil => simp [alGet, alRemove]
  | cons hd t ih =>
    obtain ⟨k₁, v₁⟩ := hd
    by_cases h : k₁ = k <;> simp [alGet, alRemove, h, ih]

theorem alGet_alRemove_ne {α β : Type} [DecidableEq α] (l : List (α × β)) (k k' : α)
    (h : k' ≠ k) : alGet (alRemove l k) k' = alGet l k' := by
  induction l with
  | nil => simp [alRemove]
  | cons hd t ih =>
    obtain ⟨k₁, v₁⟩ := hd
    by_cases h₁ : k₁ = k
    · simp [alGet, alRemove, h₁, Ne.symm h, ih]
    · simp only [alRemove, if_neg h₁, alGet]
      by_cases h₂ : k₁ = k' <;> simp [h₂, ih]

theorem alRemove_of_alGet_none {α β : Type} [DecidableEq α] (l : List (α × β)) (k : α)
    (h : alGet l k = Option.none) : alRemove l k = l := by
  induction l with
  | nil => simp [alRemove]
  | cons hd t ih =>
    obtain ⟨k₁, v₁⟩ := hd
    by_cases h₁ : k₁ = k
    · subst h₁
      simp [alGet] at h
    · simp [alGet, h₁] at h
      simp [alRemove, h₁, ih h]

/-! ### Registry lemmas -/

theorem alert_live_eq_isSome (s : AlertsStore) (chat : ℤ) (coin : String) :
    alert_live s chat coin = (getSub s chat coin).isSome := by
  unfold alert_live getSub
  cases alGet s chat <;> simp

theorem getSub_setup_self (s : AlertsStore) (chat : ℤ) (coin : String)
    (interval_s tid : ℕ) :
    getSub (setup_alert s chat coin interval_s tid) chat coin =
      some ⟨tid, interval_s, Option.none⟩ := by
  unfold getSub setup_alert
  cases h : alGet s chat <;> simp [h, alGet_alSet_self]

theorem getLast_setup_self (s : AlertsStore) (chat : ℤ) (coin : String)
    (interval_s tid : ℕ) :
    getLast (setup_alert s chat coin interval_s tid) chat coin = Option.none := by
  unfold getLast
  rw [getSub_setup_self]
  rfl

theorem getSub_setLastPrice_self (s : AlertsStore) (chat : ℤ) (coin : String)
    (p : Option ℚ) (rec : SubRec) (h : getSub s chat coin = some rec) :
    getSub (setLastPrice s chat coin p) chat coin = some { rec with last_price := p } := by
  unfold getSub at h
  cases hc : alGet s chat with
  | none => rw [hc] at h; simp at h
  | some inner =>
    rw [hc] at h
    simp only [Option.some_bind] at h
    simp only [setLastPrice, hc, h, getSub]
    simp [alGet_alSet_self]

theorem getLast_setLastPrice_self (s : AlertsStore) (chat : ℤ) (coin : String)
    (p : Option ℚ) (rec : SubRec) (h : getSub s chat coin = some rec) :
    getLast (setLastPrice s chat coin p) chat coin = p := by
  unfold getLast
  rw [getSub_setLastPrice_self s chat coin p rec h]
  rfl

theorem getSub_setLastPrice_fields (s : AlertsStore) (chat : ℤ) (coin : String)
    (p : Option ℚ) (chat' : ℤ) (coin' : String) :
    (getSub (setLastPrice s chat coin p) chat' coin').map
        (fun r => (r.threadId, r.interval)) =
      (getSub s chat' coin').map (fun r => (r.threadId, r.interval)) := by
  cases hc : alGet s chat with
  | none => simp [setLastPrice, hc]
  | some inner =>
    cases ha : alGet inner coin with
    | none => simp [setLastPrice, hc, ha]
    | some rec =>
      simp only [setLastPrice, hc, ha]
      by_cases h₁ : chat' = chat
      · subst h₁
        by_cases h₂ : coin' = coin
        · subst h₂
          simp [getSub, alGet_alSet_self, hc, ha]
        · simp [getSub, alGet_alSet_self, alGet_alSet_ne _ _ _ _ h₂, hc]
      · simp [getSub, alGet_alSet_ne _ _ _ _ h₁]

/-! ### Worker-step lemmas -/

theorem alert_tick_dead (s : AlertsStore) (chat : ℤ) (coin : String) (f : Option ℚ)
    (h : alert_live s chat coin = false) :
    alert_tick s chat coin f = ⟨s, Option.none, false⟩ := by
  simp [alert_tick, h]

theorem alert_tick_unavailable (s : AlertsStore) (chat : ℤ) (coin : String)
    (h : alert_live s chat coin = true) :
    alert_tick s chat coin Option.none = ⟨s, some (AlertMsg.unavailable coin), true⟩ := by
  simp [alert_tick, h]

theorem getLast_eq_of_getSub (s : AlertsStore) (chat : ℤ) (coin : String) (rec : SubRec)
    (h : getSub s chat coin = some rec) : getLast s chat coin = rec.last_price := by
  unfold getLast
  rw [h]
  rfl

theorem alert_live_of_getSub (s : AlertsStore) (chat : ℤ) (coin : String) (rec : SubRec)
    (h : getSub s chat coin = some rec) : alert_live s chat coin = true := by
  rw [alert_live_eq_isSome, h]
  rfl

theorem alert_tick_success_pos (s : AlertsStore) (chat : ℤ) (coin : String)
    (rec : SubRec) (o np : ℚ) (h : getSub s chat coin = some rec)
    (ho : rec.last_price = some o) (hpos : 0 < o) :
    alert_tick s chat coin (some np) =
      ⟨setLastPrice s chat coin (some np),
       some (AlertMsg.change coin np ((np - o) / o * 100) (dirOf ((np - o) / o * 100))),
       true⟩ := by
  have hlive := alert_live_of_getSub s chat coin rec h
  have hlast : getLast s chat coin = some o := by
    rw [getLast_eq_of_getSub s chat coin rec h, ho]
  simp [alert_tick, hlive, hlast, ne_of_gt hpos, hpos]

theorem alert_tick_success_unset (s : AlertsStore) (chat : ℤ) (coin : String)
    (rec : SubRec) (np : ℚ) (h : getSub s chat coin = some rec)
    (ho : rec.last_price = Option.none) :
    alert_tick s chat coin (some np) =
      ⟨setLastPrice s chat coin (some np), some (AlertMsg.plain coin np), true⟩ := by
  have hlive := alert_live_of_getSub s chat coin rec h
  have hlast : getLast s chat coin = Option.none := by
    rw [getLast_eq_of_getSub s chat coin rec h, ho]
  simp [alert_tick, hlive, hlast]

theorem alert_tick_success_nonpos (s : AlertsStore) (chat : ℤ) (coin : String)
    (rec : SubRec) (o np : ℚ) (h : getSub s chat coin = some rec)
    (ho : rec.last_price = some o) (hnp : ¬ 0 < o) :
    alert_tick s chat coin (some np) =
      ⟨setLastPrice s chat coin (some np), some (AlertMsg.plain coin np), true⟩ := by
  have hlive := alert_live_of_getSub s chat coin rec h
  have hlast : getLast s chat coin = some o := by
    rw [getLast_eq_of_getSub s chat coin rec h, ho]
  simp [alert_tick, hlive, hlast, hnp]

theorem trace_all_pos (chat : ℤ) (coin : String) (rest : List ℚ) :
    ∀ (s : AlertsStore) (rec : SubRec) (b : ℚ),
      getSub s chat coin = some rec → rec.last_price = some b → 0 < b →
      (∀ p ∈ rest, 0 < p) →
      ((alert_tick_trace s chat coin (rest.map some)).map fun r => r.sent.bind msgPct)
          = expected_pcts b rest ∧
      ((alert_tick_trace s chat coin (rest.map some)).map fun r => getLast r.store chat coin)
          = rest.map some := by
  induction rest with
  | nil =>
    intro s rec b h hb hpos hall
    simp [alert_tick_trace, expected_pcts]
  | cons p ps ih =>
    intro s rec b h hb hpos hall
    have hp : 0 < p := hall p (by simp)
    have htick := alert_tick_success_pos s chat coin rec b p h hb hpos
    have hrec' : getSub (setLastPrice s chat coin (some p)) chat coin
        = some { rec with last_price := some p } :=
      getSub_setLastPrice_self s chat coin (some p) rec h
    obtain ⟨ih1, ih2⟩ := ih (setLastPrice s chat coin (some p))
      { rec with last_price := some p } p hrec' rfl hp
      (fun q hq => hall q (List.mem_cons_of_mem _ hq))
    constructor
    · simp only [List.map_cons, alert_tick_trace, htick]
      rw [ih1]
      simp [expected_pcts, msgPct]
    · simp only [List.map_cons, alert_tick_trace, htick]
      rw [ih2]
      simp [getLast_setLastPrice_self s chat coin (some p) rec h]

/-! ### Removal lemmas -/

theorem getSub_unsubscribe_self (s : AlertsStore) (chat : ℤ) (coin : String) :
    getSub (unsubscribe s chat coin) chat coin = Option.none := by
  cases hc : alGet s chat with
  | none => simp [unsubscribe, getSub, hc]
  | some inner =>
    simp [unsubscribe, getSub, hc, alGet_alSet_self, alGet_alRemove_self]

theorem unsubscribe_absent (s : AlertsStore) (chat : ℤ) (coin : String)
    (h : getSub s chat coin = Option.none) : unsubscribe s chat coin = s := by
  cases hc : alGet s chat with
  | none => simp [unsubscribe, hc]
  | some inner =>
    unfold getSub at h
    rw [hc] at h
    simp only [Option.some_bind] at h
    simp [unsubscribe, hc, alRemove_of_alGet_none inner coin h,
      alSet_of_alGet_eq s chat inner hc]

theorem getSub_clear_all (s : AlertsStore) (chat : ℤ) (coin : String) :
    getSub (clear_all_alerts s chat) chat coin = Option.none := by
  cases hc : alGet s chat with
  | none => simp [clear_all_alerts, getSub, hc]
  | some inner => simp [clear_all_alerts, getSub, hc, alGet_alSet_self, alGet]

theorem alert_live_unsubscribe (s : AlertsStore) (chat : ℤ) (coin : String) :
    alert_live (unsubscribe s chat coin) chat coin = false := by
  rw [alert_live_eq_isSome, getSub_unsubscribe_self]
  rfl

theorem alert_live_clear_all (s : AlertsStore) (chat : ℤ) (coin : String) :
    alert_live (clear_all_alerts s chat) chat coin = false := by
  rw [alert_live_eq_isSome, getSub_clear_all]
  rfl

/-! ### Claim theorems -/

/-- Claim C1 (code bug, scenario theorem): after a second `setup_alert` for
the same `(subscriber, asset)` pair, the superseded worker's next wake still
passes the liveness check — the check (`chat_id not in alerts_store or
coin_id not in alerts_store[chat_id]`) is keyed only by the pair, which the
new `setup_alert` re-inserted, and carries no thread identity — so the old
thread's loop body (identical to the new one's except for its sleep length)
proceeds to send a notification at its stale 900-second cadence and keeps
its loop alive. It therefore never stops, contradicting the claim's
one-interval grace period and the source's own comment that the previous
thread "will terminate by itself at the next check". -/
theorem C1_superseded_worker_keeps_notifying :
    alert_live resub_store 42 "bitcoin" = true ∧
    (alert_tick resub_store 42 "bitcoin" (some 101)).alive = true ∧
    (alert_tick resub_store 42 "bitcoin" (some 101)).sent
      = some (AlertMsg.plain "bitcoin" 101) := by
  decide

/-- Claim C2 (amended: all fetched prices positive): for a subscription whose
successful fetches are `p0 :: rest` with every price positive, the initial
notification carries no percentage and records `p0` as the baseline, the
`k`-th periodic tick reports `(p_k - p_(k-1)) / p_(k-1) * 100`, and each tick
writes the newly fetched price as `last_price`. -/
theorem C2_percentage_sequence (chat : ℤ) (coin : String) (interval_s tid : ℕ)
    (p0 : ℚ) (rest : List ℚ) (hp0 : 0 < p0) (hrest : ∀ p ∈ rest, 0 < p) :
    C2_claim chat coin interval_s tid p0 rest := by
  have hsetup := getSub_setup_self ([] : AlertsStore) chat coin interval_s tid
  have hstart : subscribe_and_start chat coin interval_s tid p0
      = (setLastPrice (setup_alert [] chat coin interval_s tid) chat coin (some p0),
         some (AlertMsg.enabled coin p0)) := by
    simp [subscribe_and_start, alert_worker_start, ne_of_gt hp0]
  have hrec : getSub (setLastPrice (setup_alert [] chat coin interval_s tid) chat coin
      (some p0)) chat coin = some ⟨tid, interval_s, some p0⟩ :=
    getSub_setLastPrice_self _ chat coin (some p0) _ hsetup
  unfold C2_claim
  rw [hstart]
  refine ⟨rfl, getLast_setLastPrice_self _ chat coin (some p0) _ hsetup, ?_, ?_⟩
  · exact (trace_all_pos chat coin rest _ _ p0 hrec rfl hp0 hrest).1
  · exact (trace_all_pos chat coin rest _ _ p0 hrec rfl hp0 hrest).2

theorem C2_percentage_sequence_witness :
    (0 : ℚ) < 1 ∧ C2_claim 42 "bitcoin" 900 0 1 [2, 1] :=
  ⟨by norm_num,
   C2_percentage_sequence 42 "bitcoin" 900 0 1 [2, 1] (by norm_num)
     (by intro p hp; simp at hp; rcases hp with h | h <;> norm_num [h])⟩

/-- Claim C2 counterexample: with fetch sequence `[0, 1]` (a successful fetch
can return exactly `0.0`) the claim as stated fails — `if last_price:` is
falsy at `0.0`, so no initial notification is sent and `p0` is not recorded
as the baseline. -/
theorem C2_counterexample : ¬ C2_claim 42 "bitcoin" 900 0 0 [1] := by
  intro h
  exact absurd h.1 (by decide)

/-- Claim C9 (amended: the initial notification requires a nonzero available
price): `setup_alert` initialises `last_price` to unset and leaves the
subscription live; the STARTING step on an available nonzero price sends the
"alerts enabled" notification and records the price; on an unavailable price
— or on the price `0`, which Python truthiness conflates with it — it skips
the initial notification, leaves the registry untouched and the subscription
live (the periodic task still runs). -/
theorem C9_start_behavior (s : AlertsStore) (chat : ℤ) (coin : String)
    (interval_s tid : ℕ) (s0 : AlertsStore)
    (h0 : s0 = setup_alert s chat coin interval_s tid) :
    getLast s0 chat coin = Option.none ∧
    alert_live s0 chat coin = true ∧
    (∀ p : ℚ, p ≠ 0 →
      alert_worker_start s0 chat coin (some p)
          = (setLastPrice s0 chat coin (some p), some (AlertMsg.enabled coin p)) ∧
      getLast (setLastPrice s0 chat coin (some p)) chat coin = some p) ∧
    alert_worker_start s0 chat coin Option.none = (s0, Option.none) ∧
    alert_worker_start s0 chat coin (some 0) = (s0, Option.none) := by
  subst h0
  have hsetup := getSub_setup_self s chat coin interval_s tid
  refine ⟨getLast_setup_self s chat coin interval_s tid,
    alert_live_of_getSub _ chat coin _ hsetup, ?_, rfl, ?_⟩
  · intro p hp
    exact ⟨by simp [alert_worker_start, hp],
      getLast_setLastPrice_self _ chat coin (some p) _ hsetup⟩
  · simp [alert_worker_start]

theorem C9_start_behavior_witness :
    setup_alert [] 7 "solana" 1800 3 = setup_alert [] 7 "solana" 1800 3 ∧
    (getLast (setup_alert [] 7 "solana" 1800 3) 7 "solana" = Option.none ∧
     alert_live (setup_alert [] 7 "solana" 1800 3) 7 "solana" = true ∧
     (∀ p : ℚ, p ≠ 0 →
       alert_worker_start (setup_alert [] 7 "solana" 1800 3) 7 "solana" (some p)
           = (setLastPrice (setup_alert [] 7 "solana" 1800 3) 7 "solana" (some p),
              some (AlertMsg.enabled "solana" p)) ∧
       getLast (setLastPrice (setup_alert [] 7 "solana" 1800 3) 7 "solana" (some p))
           7 "solana" = some p) ∧
     alert_worker_start (setup_alert [] 7 "solana" 1800 3) 7 "solana" Option.none
         = (setup_alert [] 7 "solana" 1800 3, Option.none) ∧
     alert_worker_start (setup_alert [] 7 "solana" 1800 3) 7 "solana" (some 0)
         = (setup_alert [] 7 "solana" 1800 3, Option.none)) :=
  ⟨rfl, C9_start_behavior [] 7 "solana" 1800 3 _ rfl⟩

/-- Claim C9 counterexample: a fetched price of exactly `0.0` is available,
yet the STARTING step sends no initial notification and records nothing —
`if last_price:` treats `0.0` like `None`. -/
theorem C9_counterexample : ¬ C9_claim 42 "bitcoin" 900 0 (some 0) := by
  intro h
  exact absurd ((h.2.1 0 rfl).1) (by decide)

/-- Claim C3 (amended): the price lookup returns the absence marker — never
raising — when the fetched response is unavailable/falsy (`fetch_json`'s
failure marker `None` is falsy) and when the asset key is missing from a
dict response; a missing expected field *inside* the asset's record, by
contrast, raises (`KeyError`) instead of returning absence (see the
counterexample). -/
theorem C3_absence_cases (data : PyVal) (coin : String) :
    (truthy data = false → get_simple_price data coin = Except.ok Option.none) ∧
    (∀ entries, data = PyVal.dict entries → alGet entries coin = Option.none →
        get_simple_price data coin = Except.ok Option.none) := by
  constructor
  · intro h
    simp [get_simple_price, h]
  · intro entries hd hmiss
    subst hd
    by_cases ht : truthy (PyVal.dict entries) = false
    · simp [get_simple_price, ht]
    · simp [get_simple_price, ht, pyContains, hmiss]
      rfl

theorem C3_absence_cases_witness :
    truthy PyVal.null = false ∧
    get_simple_price PyVal.null "bitcoin" = Except.ok Option.none ∧
    get_simple_price (PyVal.dict [("ethereum", PyVal.dict [("usd", PyVal.num 3)])])
        "bitcoin" = Except.ok Option.none :=
  ⟨rfl, (C3_absence_cases PyVal.null "bitcoin").1 rfl,
   (C3_absence_cases (PyVal.dict [("ethereum", PyVal.dict [("usd", PyVal.num 3)])])
      "bitcoin").2 _ rfl rfl⟩

/-- Claim C3 counterexample: a response in which the asset key is present but
the expected `"usd"` field is missing makes `float(data[coin_id]["usd"])`
raise `KeyError` — the lookup raises rather than returning the absence
marker, so "a missing field is treated identically to a fetch failure, not a
crash" fails. -/
theorem C3_counterexample :
    get_simple_price (PyVal.dict [("bitcoin", PyVal.dict [])]) "bitcoin"
        = Except.error "KeyError" ∧
    get_simple_price (PyVal.dict [("bitcoin", PyVal.dict [])]) "bitcoin"
        ≠ Except.ok Option.none := by
  have h : get_simple_price (PyVal.dict [("bitcoin", PyVal.dict [])]) "bitcoin"
      = Except.error "KeyError" := rfl
  refine ⟨h, ?_⟩
  rw [h]
  simp

/-- Claim C4: on a live subscription, a failed price lookup at a tick sends
the "price unavailable" notice, leaves the whole registry — in particular
`last_price` — exactly as it was, keeps the loop alive, and the next
successful tick behaves exactly as it would have on the original state, i.e.
computes its percentage against the unchanged baseline. -/
theorem C4_failure_frame (s : AlertsStore) (chat : ℤ) (coin : String) (p : ℚ)
    (hlive : alert_live s chat coin = true) :
    alert_tick s chat coin Option.none = ⟨s, some (AlertMsg.unavailable coin), true⟩ ∧
    alert_tick (alert_tick s chat coin Option.none).store chat coin (some p)
        = alert_tick s chat coin (some p) := by
  have h1 := alert_tick_unavailable s chat coin hlive
  exact ⟨h1, by rw [h1]⟩

theorem C4_failure_frame_witness :
    alert_live wStore 1 "btc" = true ∧
    (alert_tick wStore 1 "btc" Option.none
        = ⟨wStore, some (AlertMsg.unavailable "btc"), true⟩ ∧
     alert_tick (alert_tick wStore 1 "btc" Option.none).store 1 "btc" (some 5)
        = alert_tick wStore 1 "btc" (some 5)) :=
  ⟨by decide, C4_failure_frame wStore 1 "btc" 5 (by decide)⟩

/-- Claim C7: on a successful tick of a live subscription the percentage is
`(new - old) / old * 100` exactly when the stored `last_price` is set and
positive (`if last_price and last_price > 0`), the notification is a plain
price line when the change is undefined, and the directional indicator is
up for a positive change, down for a negative one, and flat at exactly 0. -/
theorem C7_change_pct (s : AlertsStore) (chat : ℤ) (coin : String) (np : ℚ)
    (hlive : alert_live s chat coin = true) :
    (∀ o : ℚ, getLast s chat coin = some o → 0 < o →
      (alert_tick s chat coin (some np)).sent
          = some (AlertMsg.change coin np ((np - o) / o * 100)
              (dirOf ((np - o) / o * 100)))) ∧
    (getLast s chat coin = Option.none →
      (alert_tick s chat coin (some np)).sent = some (AlertMsg.plain coin np)) ∧
    (∀ o : ℚ, getLast s chat coin = some o → ¬ 0 < o →
      (alert_tick s chat coin (some np)).sent = some (AlertMsg.plain coin np)) ∧
    (∀ q : ℚ, (0 < q → dirOf q = PriceDir.up) ∧ (q < 0 → dirOf q = PriceDir.down) ∧
      (q = 0 → dirOf q = PriceDir.flat)) := by
  rw [alert_live_eq_isSome] at hlive
  obtain ⟨rec, hrec⟩ := Option.isSome_iff_exists.mp hlive
  refine ⟨?_, ?_, ?_, ?_⟩
  · intro o ho hpos
    have hl : rec.last_price = some o := by
      rw [getLast_eq_of_getSub s chat coin rec hrec] at ho
      exact ho
    rw [alert_tick_success_pos s chat coin rec o np hrec hl hpos]
  · intro ho
    have hl : rec.last_price = Option.none := by
      rw [getLast_eq_of_getSub s chat coin rec hrec] at ho
      exact ho
    rw [alert_tick_success_unset s chat coin rec np hrec hl]
  · intro o ho hnp
    have hl : rec.last_price = some o := by
      rw [getLast_eq_of_getSub s chat coin rec hrec] at ho
      exact ho
    rw [alert_tick_success_nonpos s chat coin rec o np hrec hl hnp]
  · intro q
    refine ⟨fun h => by simp [dirOf, h], fun h => ?_, fun h => by simp [dirOf, h]⟩
    rw [dirOf, if_neg (by linarith), if_pos h]

theorem C7_change_pct_witness :
    alert_live wStore 1 "btc" = true ∧
    (alert_tick wStore 1 "btc" (some 5)).sent
        = some (AlertMsg.change "btc" 5 ((5 - 4) / 4 * 100) (dirOf ((5 - 4) / 4 * 100))) :=
  ⟨by decide,
   (C7_change_pct wStore 1 "btc" 5 (by decide)).1 4 (by decide) (by norm_num)⟩

/-- Claim C5 (amended): a fetch call finding a cached entry of age at most
`ttl` holding data (the parsed-`null` entry is conflated with the failure
marker and refetched) returns the cached data with no network call; two
fetch calls with the same URL within `ttl` seconds, the first of which
performs a network call that returns data, produce identical data with
exactly one network call between them; and a call finding the entry older
than `ttl` performs a fresh network call, on success overwriting the entry
with the new data and current timestamp. -/
theorem C5_cache_behavior :
    (∀ (net : NetResp) (c : Cache) (now : ℚ) (url : String) (ttl : ℚ) (rec : CacheRec),
        alGet c url = some rec → now - rec.ts ≤ ttl → rec.data.isNull = false →
        fetch_json net c now url ttl = ⟨rec.data, c, false⟩) ∧
    (∀ (net2 : NetResp) (c : Cache) (t1 t2 : ℚ) (url : String) (ttl : ℚ) (data : PyVal),
        cache_get c t1 url ttl = PyVal.null → data.isNull = false → t2 - t1 ≤ ttl →
        (fetch_twice (NetResp.resp 200 (some data)) net2 c t1 t2 url ttl).1.data = data ∧
        (fetch_twice (NetResp.resp 200 (some data)) net2 c t1 t2 url ttl).2.data = data ∧
        netCalls2 (fetch_twice (NetResp.resp 200 (some data)) net2 c t1 t2 url ttl) = 1) ∧
    (∀ (net : NetResp) (c : Cache) (now : ℚ) (url : String) (ttl : ℚ) (rec : CacheRec),
        alGet c url = some rec → ttl < now - rec.ts →
        (fetch_json net c now url ttl).netCalled = true ∧
        (∀ data, net = NetResp.resp 200 (some data) →
            (fetch_json net c now url ttl).cache = cache_set c now url data)) := by
  refine ⟨?_, ?_, ?_⟩
  · intro net c now url ttl rec halGet hage hnn
    have hcg : cache_get c now url ttl = rec.data := by
      simp [cache_get, halGet, not_lt.mpr hage]
    simp [fetch_json, hcg, hnn]
  · intro net2 c t1 t2 url ttl data hmiss hdn hage
    have h1 : fetch_json (NetResp.resp 200 (some data)) c t1 url ttl
        = ⟨data, cache_set c t1 url data, true⟩ := by
      simp [fetch_json, hmiss, PyVal.isNull]
    have hcg2 : cache_get (cache_set c t1 url data) t2 url ttl = data := by
      simp [cache_get, cache_set, alGet_alSet_self, not_lt.mpr hage]
    have h2 : fetch_json net2 (cache_set c t1 url data) t2 url ttl
        = ⟨data, cache_set c t1 url data, false⟩ := by
      simp [fetch_json, hcg2, hdn]
    simp [fetch_twice, h1, h2, netCalls2]
  · intro net c now url ttl rec halGet hold
    have hcg : cache_get c now url ttl = PyVal.null := by
      simp [cache_get, halGet, hold]
    constructor
    · cases net with
      | transportError => simp [fetch_json, hcg, PyVal.isNull]
      | resp status body =>
        by_cases hs : status = 200
        · subst hs; cases body <;> simp [fetch_json, hcg, PyVal.isNull]
        · simp [fetch_json, hcg, hs, PyVal.isNull]
    · intro data hnet
      subst hnet
      simp [fetch_json, hcg, PyVal.isNull]

theorem C5_cache_behavior_witness :
    alGet ([("u", ⟨0, PyVal.num 7⟩)] : Cache) "u" = some ⟨0, PyVal.num 7⟩ ∧
    fetch_json NetResp.transportError [("u", ⟨0, PyVal.num 7⟩)] 50 "u" 120
        = ⟨PyVal.num 7, [("u", ⟨0, PyVal.num 7⟩)], false⟩ ∧
    netCalls2 (fetch_twice (NetResp.resp 200 (some (PyVal.num 3)))
        NetResp.transportError [] 0 10 "u" 120) = 1 :=
  ⟨rfl,
   C5_cache_behavior.1 NetResp.transportError _ 50 "u" 120 ⟨0, PyVal.num 7⟩ rfl
     (by norm_num) rfl,
   (C5_cache_behavior.2.1 NetResp.transportError [] 0 10 "u" 120 (PyVal.num 3) rfl rfl
     (by norm_num)).2.2⟩

/-- Claim C5 counterexample: when the first of two fetch calls within `ttl`
fails (transport error), nothing is cached, so the second call also hits the
network — two network calls, and the returned data differ — falsifying the
claim as stated. -/
theorem C5_counterexample :
    ¬ C5_claim NetResp.transportError (NetResp.resp 200 (some (PyVal.num 5)))
        [] 0 10 "url" 120 := by
  intro h
  exact absurd (h (by norm_num) (by norm_num)).2 (by decide)

/-- Claim C6: when the cache misses, `fetch_json` never raises and on a
transport error, a non-success status, or a JSON parse error it returns the
failure marker with the cache mapping untouched; only on a 200 parse is the
response stored, under the exact URL string, leaving every other URL's entry
unchanged. (The function is total by construction: the source's `try/except`
is the explicit case split.) -/
theorem C6_fetch_error_handling (net : NetResp) (c : Cache) (now : ℚ) (url : String)
    (ttl : ℚ) (hmiss : cache_get c now url ttl = PyVal.null) :
    (net = NetResp.transportError → fetch_json net c now url ttl = ⟨PyVal.null, c, true⟩) ∧
    (∀ status body, net = NetResp.resp status body → status ≠ 200 →
        fetch_json net c now url ttl = ⟨PyVal.null, c, true⟩) ∧
    (net = NetResp.resp 200 Option.none →
        fetch_json net c now url ttl = ⟨PyVal.null, c, true⟩) ∧
    (∀ data, net = NetResp.resp 200 (some data) →
        fetch_json net c now url ttl = ⟨data, cache_set c now url data, true⟩ ∧
        alGet (fetch_json net c now url ttl).cache url = some ⟨now, data⟩ ∧
        (∀ url', url' ≠ url →
            alGet (fetch_json net c now url ttl).cache url' = alGet c url')) := by
  refine ⟨?_, ?_, ?_, ?_⟩
  · intro h
    subst h
    simp [fetch_json, hmiss, PyVal.isNull]
  · intro status body h hs
    subst h
    cases body <;> simp [fetch_json, hmiss, hs, PyVal.isNull]
  · intro h
    subst h
    simp [fetch_json, hmiss, PyVal.isNull]
  · intro data h
    subst h
    have hf : fetch_json (NetResp.resp 200 (some data)) c now url ttl
        = ⟨data, cache_set c now url data, true⟩ := by
      simp [fetch_json, hmiss, PyVal.isNull]
    refine ⟨hf, ?_, ?_⟩
    · rw [hf]
      exact alGet_alSet_self c url ⟨now, data⟩
    · intro url' hne
      rw [hf]
      exact alGet_alSet_ne c url url' ⟨now, data⟩ hne

theorem C6_fetch_error_handling_witness :
    cache_get [] 0 "u" 120 = PyVal.null ∧
    fetch_json (NetResp.resp 200 (some (PyVal.num 7))) [] 0 "u" 120
        = ⟨PyVal.num 7, cache_set [] 0 "u" (PyVal.num 7), true⟩ :=
  ⟨rfl,
   ((C6_fetch_error_handling (NetResp.resp 200 (some (PyVal.num 7))) [] 0 "u" 120
      rfl).2.2.2 (PyVal.num 7) rfl).1⟩

/-- Claim C8: `unsubscribe` (modelled from the spec; absent from the source)
and `clear_all_alerts` are idempotent no-ops on absent entries and never
raise (both are total); `unsubscribe` removes exactly the one
`(subscriber, asset)` entry, `clear_all_alerts` removes every subscription of
the subscriber; and after either removal the worker's next tick fails the
liveness check and terminates without sending a notification. -/
theorem C8_removal_idempotent (s : AlertsStore) (chat : ℤ) (coin : String)
    (f : Option ℚ) :
    unsubscribe (unsubscribe s chat coin) chat coin = unsubscribe s chat coin ∧
    clear_all_alerts (clear_all_alerts s chat) chat = clear_all_alerts s chat ∧
    (getSub s chat coin = Option.none → unsubscribe s chat coin = s) ∧
    (alGet s chat = Option.none → clear_all_alerts s chat = s) ∧
    getSub (unsubscribe s chat coin) chat coin = Option.none ∧
    (∀ coin', getSub (clear_all_alerts s chat) chat coin' = Option.none) ∧
    (∀ coin', coin' ≠ coin →
        getSub (unsubscribe s chat coin) chat coin' = getSub s chat coin') ∧
    (∀ chat' coin', chat' ≠ chat →
        getSub (unsubscribe s chat coin) chat' coin' = getSub s chat' coin') ∧
    alert_tick (unsubscribe s chat coin) chat coin f
        = ⟨unsubscribe s chat coin, Option.none, false⟩ ∧
    alert_tick (clear_all_alerts s chat) chat coin f
        = ⟨clear_all_alerts s chat, Option.none, false⟩ := by
  refine ⟨unsubscribe_absent _ chat coin (getSub_unsubscribe_self s chat coin),
    ?_, unsubscribe_absent s chat coin, fun h => by simp [clear_all_alerts, h],
    getSub_unsubscribe_self s chat coin, fun coin' => getSub_clear_all s chat coin',
    ?_, ?_,
    alert_tick_dead _ chat coin f (alert_live_unsubscribe s chat coin),
    alert_tick_dead _ chat coin f (alert_live_clear_all s chat coin)⟩
  · cases hc : alGet s chat with
    | none => simp [clear_all_alerts, hc]
    | some inner =>
      simp only [clear_all_alerts, hc, alGet_alSet_self]
      exact alSet_of_alGet_eq _ chat ([] : ChatAlerts) (alGet_alSet_self s chat [])
  · intro coin' hne
    cases hc : alGet s chat with
    | none => simp [unsubscribe, hc]
    | some inner =>
      simp [unsubscribe, getSub, hc, alGet_alSet_self, alGet_alRemove_ne inner coin coin' hne]
  · intro chat' coin' hne
    cases hc : alGet s chat with
    | none => simp [unsubscribe, hc]
    | some inner =>
      simp [unsubscribe, getSub, hc, alGet_alSet_ne s chat chat' _ hne]

theorem C8_removal_idempotent_witness :
    getSub ([] : AlertsStore) 5 "eth" = Option.none ∧
    unsubscribe ([] : AlertsStore) 5 "eth" = [] ∧
    unsubscribe (unsubscribe wStore 1 "btc") 1 "btc" = unsubscribe wStore 1 "btc" ∧
    alert_tick (clear_all_alerts wStore 1) 1 "btc" (some 3)
        = ⟨clear_all_alerts wStore 1, Option.none, false⟩ :=
  ⟨rfl, (C8_removal_idempotent [] 5 "eth" Option.none).2.2.1 rfl,
   (C8_removal_idempotent wStore 1 "btc" (some 3)).1,
   (C8_removal_idempotent wStore 1 "btc" (some 3)).2.2.2.2.2.2.2.2.2⟩

/-- Claim C10: one iteration of the worker's tick loop writes no subscription
field other than `last_price`: for every record of the registry (the ticked
one included), the `interval` and thread-handle fields — and the set of
present records — are exactly what they were before the tick, so a record's
tick cadence is fixed at subscribe time. -/
theorem C10_tick_only_writes_last_price (s : AlertsStore) (chat : ℤ) (coin : String)
    (f : Option ℚ) (chat' : ℤ) (coin' : String) :
    (getSub (alert_tick s chat coin f).store chat' coin').map
        (fun r => (r.threadId, r.interval))
      = (getSub s chat' coin').map (fun r => (r.threadId, r.interval)) := by
  by_cases hlive : alert_live s chat coin = false
  · rw [alert_tick_dead s chat coin f hlive]
  · have hl : alert_live s chat coin = true := by
      revert hlive
      cases alert_live s chat coin <;> simp
    cases f with
    | none => rw [alert_tick_unavailable s chat coin hl]
    | some current =>
      rw [alert_live_eq_isSome] at hl
      obtain ⟨rec, hrec⟩ := Option.isSome_iff_exists.mp hl
      cases ho : rec.last_price with
      | none =>
        rw [alert_tick_success_unset s chat coin rec current hrec ho]
        exact getSub_setLastPrice_fields s chat coin (some current) chat' coin'
      | some o =>
        by_cases hpos : 0 < o
        · rw [alert_tick_success_pos s chat coin rec o current hrec ho hpos]
          exact getSub_setLastPrice_fields s chat coin (some current) chat' coin'
        · rw [alert_tick_success_nonpos s chat coin rec o current hrec ho hpos]
          exact getSub_setLastPrice_fields s chat coin (some current) chat' coin'
